import Mathlib

/-!
Verification of the Spook lovelace repair entity-reference extractor
(`custom_components/spook/repairs/lovelace_unknown_entity_references.py`).

The extractor walks a deserialized JSON/YAML dashboard document.  We embed
the document values as an inductive `JSON` type mirroring Python data
(strings, numbers, booleans, None, lists, dicts) and embed each extractor
function.  A Python exception (TypeError / AttributeError) is modelled as
`none`; a normal return of a set is `some` of a `Finset JSON`.
-/

namespace Spook

/-- A deserialized configuration node: Python str, int, bool, None, list or dict.
Dicts are association lists; Python dict keys are unique and `.get` reads the
first (only) binding. -/
inductive JSON where
  | str : String → JSON
  | num : Int → JSON
  | bool : Bool → JSON
  | null : JSON
  | list : List JSON → JSON
  | obj : List (String × JSON) → JSON

mutual

/-- Decidable equality of configuration nodes. -/
def decEq : (a b : JSON) → Decidable (a = b)
  | .str s, .str t =>
    if h : s = t then .isTrue (by rw [h])
    else .isFalse (by intro hh; injection hh with h2; exact h h2)
  | .num s, .num t =>
    if h : s = t then .isTrue (by rw [h])
    else .isFalse (by intro hh; injection hh with h2; exact h h2)
  | .bool s, .bool t =>
    if h : s = t then .isTrue (by rw [h])
    else .isFalse (by intro hh; injection hh with h2; exact h h2)
  | .null, .null => .isTrue rfl
  | .list s, .list t =>
    match decEqL s t with
    | .isTrue h => .isTrue (by rw [h])
    | .isFalse h => .isFalse (by intro hh; injection hh with h2; exact h h2)
  | .obj s, .obj t =>
    match decEqKV s t with
    | .isTrue h => .isTrue (by rw [h])
    | .isFalse h => .isFalse (by intro hh; injection hh with h2; exact h h2)
  | .str _, .num _ => .isFalse (fun h => JSON.noConfusion h)
  | .str _, .bool _ => .isFalse (fun h => JSON.noConfusion h)
  | .str _, .null => .isFalse (fun h => JSON.noConfusion h)
  | .str _, .list _ => .isFalse (fun h => JSON.noConfusion h)
  | .str _, .obj _ => .isFalse (fun h => JSON.noConfusion h)
  | .num _, .str _ => .isFalse (fun h => JSON.noConfusion h)
  | .num _, .bool _ => .isFalse (fun h => JSON.noConfusion h)
  | .num _, .null => .isFalse (fun h => JSON.noConfusion h)
  | .num _, .list _ => .isFalse (fun h => JSON.noConfusion h)
  | .num _, .obj _ => .isFalse (fun h => JSON.noConfusion h)
  | .bool _, .str _ => .isFalse (fun h => JSON.noConfusion h)
  | .bool _, .num _ => .isFalse (fun h => JSON.noConfusion h)
  | .bool _, .null => .isFalse (fun h => JSON.noConfusion h)
  | .bool _, .list _ => .isFalse (fun h => JSON.noConfusion h)
  | .bool _, .obj _ => .isFalse (fun h => JSON.noConfusion h)
  | .null, .str _ => .isFalse (fun h => JSON.noConfusion h)
  | .null, .num _ => .isFalse (fun h => JSON.noConfusion h)
  | .null, .bool _ => .isFalse (fun h => JSON.noConfusion h)
  | .null, .list _ => .isFalse (fun h => JSON.noConfusion h)
  | .null, .obj _ => .isFalse (fun h => JSON.noConfusion h)
  | .list _, .str _ => .isFalse (fun h => JSON.noConfusion h)
  | .list _, .num _ => .isFalse (fun h => JSON.noConfusion h)
  | .list _, .bool _ => .isFalse (fun h => JSON.noConfusion h)
  | .list _, .null => .isFalse (fun h => JSON.noConfusion h)
  | .list _, .obj _ => .isFalse (fun h => JSON.noConfusion h)
  | .obj _, .str _ => .isFalse (fun h => JSON.noConfusion h)
  | .obj _, .num _ => .isFalse (fun h => JSON.noConfusion h)
  | .obj _, .bool _ => .isFalse (fun h => JSON.noConfusion h)
  | .obj _, .null => .isFalse (fun h => JSON.noConfusion h)
  | .obj _, .list _ => .isFalse (fun h => JSON.noConfusion h)

/-- Decidable equality of node lists. -/
def decEqL : (a b : List JSON) → Decidable (a = b)
  | [], [] => .isTrue rfl
  | [], _ :: _ => .isFalse (fun h => List.noConfusion h)
  | _ :: _, [] => .isFalse (fun h => List.noConfusion h)
  | x :: xs, y :: ys =>
    match decEq x y with
    | .isFalse h1 => .isFalse (by intro hh; injection hh with ha hb; exact h1 ha)
    | .isTrue h1 =>
      match decEqL xs ys with
      | .isTrue h2 => .isTrue (by rw [h1, h2])
      | .isFalse h2 => .isFalse (by intro hh; injection hh with ha hb; exact h2 hb)

/-- Decidable equality of association lists of nodes. -/
def decEqKV : (a b : List (String × JSON)) → Decidable (a = b)
  | [], [] => .isTrue rfl
  | [], _ :: _ => .isFalse (fun h => List.noConfusion h)
  | _ :: _, [] => .isFalse (fun h => List.noConfusion h)
  | (k, v) :: xs, (k2, v2) :: ys =>
    if hk : k = k2 then
      match decEq v v2 with
      | .isFalse h1 => .isFalse (by
          intro hh; injection hh with ha hb
          exact h1 (congrArg Prod.snd ha))
      | .isTrue h1 =>
        match decEqKV xs ys with
        | .isTrue h2 => .isTrue (by rw [hk, h1, h2])
        | .isFalse h2 => .isFalse (by intro hh; injection hh with ha hb; exact h2 hb)
    else
      .isFalse (by intro hh; injection hh with ha hb; exact hk (congrArg Prod.fst ha))

end

instance : DecidableEq JSON := decEq

mutual

/-- Node count of a configuration tree (every scalar counts 1). -/
def size : JSON → Nat
  | .str _ => 1
  | .num _ => 1
  | .bool _ => 1
  | .null => 1
  | .list l => 1 + sizeL l
  | .obj kvs => 1 + sizeKV kvs

/-- Node count of a list of configuration nodes. -/
def sizeL : List JSON → Nat
  | [] => 0
  | x :: xs => size x + sizeL xs

/-- Node count of an association list of configuration nodes. -/
def sizeKV : List (String × JSON) → Nat
  | [] => 0
  | (_, v) :: xs => 1 + size v + sizeKV xs

end

/-! ## Python semantics helpers -/

/-- Python truthiness of a value (`if v:`). -/
def truthy : JSON → Bool
  | .str s => s != ""
  | .num n => n != 0
  | .bool b => b
  | .null => false
  | .list l => !l.isEmpty
  | .obj kvs => !kvs.isEmpty

/-- Whether a Python value is hashable (may be put in a `set`). -/
def hashable : JSON → Bool
  | .list _ => false
  | .obj _ => false
  | _ => true

/-- Python `dict.get(key)`: the value bound to `key`, if present. -/
def pyGet (kvs : List (String × JSON)) (k : String) : Option JSON :=
  (kvs.find? (fun p => p.1 == k)).map (fun p => p.2)

/-- Whether `needle` is a prefix of `hay`, on character lists. -/
def startsWithL : List Char → List Char → Bool
  | [], _ => true
  | _ :: _, [] => false
  | c :: cs, d :: ds => c == d && startsWithL cs ds

/-- Whether `needle` occurs as a contiguous sublist of `hay`. -/
def containsL (needle : List Char) : List Char → Bool
  | [] => needle.isEmpty
  | d :: ds => startsWithL needle (d :: ds) || containsL needle ds

/-- Python `needle in s` for strings: substring containment. -/
def pyInStr (needle s : String) : Bool :=
  containsL needle.data s.data

/-- Python `s.startswith(p)`. -/
def pyStartsWith (s p : String) : Bool :=
  startsWithL p.data s.data

/-- Python `key in config`: key membership for dicts, element membership for
lists, substring test for strings, `TypeError` (`none`) otherwise. -/
def pyIn (key : String) : JSON → Option Bool
  | .str s => some (pyInStr key s)
  | .list items => some (decide (JSON.str key ∈ items))
  | .obj kvs => some ((pyGet kvs key).isSome)
  | _ => none

/-- Python `for x in v`: the sequence of items produced by iterating `v`.
Iterating a string yields its characters as one-character strings; iterating
a dict yields its keys; non-iterables give `TypeError` (`none`). -/
def pyIter : JSON → Option (List JSON)
  | .str s => some (s.data.map (fun c => JSON.str (String.singleton c)))
  | .list items => some items
  | .obj kvs => some (kvs.map (fun p => JSON.str p.1))
  | _ => none

/-- Python `set(v)`: builds a set from an iterable whose items are all
hashable; raises `TypeError` (`none`) otherwise. -/
def pySet : JSON → Option (Finset JSON)
  | .list items => if items.all hashable then some items.toFinset else none
  | .str s => some ((s.data.map (fun c => JSON.str (String.singleton c))).toFinset)
  | .obj kvs => some ((kvs.map (fun p => JSON.str p.1)).toFinset)
  | _ => none

/-- The loop `for x in items: entities.update(f(x))`, accumulating into `acc`;
an exception in any call aborts the whole loop. -/
def unionMapM (f : JSON → Option (Finset JSON)) : List JSON → Finset JSON → Option (Finset JSON)
  | [], acc => some acc
  | x :: xs, acc =>
    match f x with
    | some s => unionMapM f xs (acc ∪ s)
    | none => none

/-! ## The extractor functions

Each definition embeds the identically-named method of `SpookRepair` in
`lovelace_unknown_entity_references.py` (the `__async_extract_*` callbacks).
`none` models a raised exception. -/

/-- The four keys recognized by `__async_extract_common`. -/
def commonKeys : List String := ["camera_image", "entity", "entities", "entity_id"]

/-- Per-item handling inside the list branch of `__async_extract_common`:
a string item is itself a reference; a dict item with a string `entity`
value contributes that value; other items are ignored. -/
def itemEntity : JSON → Option JSON
  | .str s => some (JSON.str s)
  | .obj kvs =>
    match pyGet kvs "entity" with
    | some (.str s) => some (JSON.str s)
    | _ => none
  | _ => none

/-- The contribution of one (truthy) recognized value in
`__async_extract_common`: the three `isinstance` branches (str / list /
dict) are mutually exclusive, so they are rendered as one match. -/
def commonValue : JSON → Finset JSON
  | .str s => {JSON.str s}
  | .list items => (items.filterMap itemEntity).toFinset
  | .obj kvs =>
    match pyGet kvs "entity" with
    | some (.str s) => {JSON.str s}
    | _ => ∅
  | _ => ∅

/-- One iteration of the key loop of `__async_extract_common`:
`if entity := config.get(key):` skips missing and falsy values. -/
def commonKeyContrib (kvs : List (String × JSON)) (key : String) : Finset JSON :=
  match pyGet kvs key with
  | some v => if truthy v then commonValue v else ∅
  | none => ∅

/-- Embeds `__async_extract_common`.  A plain string returns the empty set;
a dict accumulates the contributions of the four recognized keys; any other
receiver has no `.get` attribute, so the call raises (`none`). -/
def extract_common : JSON → Option (Finset JSON)
  | .str _ => some ∅
  | .obj kvs => some (commonKeys.foldl (fun acc k => acc ∪ commonKeyContrib kvs k) ∅)
  | _ => none

/-- Embeds `__async_extract_entities_from_badge`.  A bare string badge is the
single reference; a dict with `entity` returns the one-element set of that
value (raising if the value is unhashable); else a dict with `entities`
returns `set(...)` of it; else the empty set.  For a list receiver the
`"entity" in config` membership tests succeed but indexing `config[key]`
with a string raises `TypeError`; non-iterable receivers raise at `in`. -/
def extract_badge : JSON → Option (Finset JSON)
  | .str s => some {JSON.str s}
  | .obj kvs =>
    match pyGet kvs "entity" with
    | some v => if hashable v then some {v} else none
    | none =>
      match pyGet kvs "entities" with
      | some v => pySet v
      | none => some ∅
  | .list items =>
    if JSON.str "entity" ∈ items ∨ JSON.str "entities" ∈ items then none
    else some ∅
  | _ => none

/-- Embeds `__async_extract_entities_from_condition`: a dict with a
string-valued `entity` key gives that singleton, any other dict the empty
set.  A string receiver evaluates `config["entity"]` (a `TypeError`) only
when `"entity"` occurs as a substring; similarly for list receivers. -/
def extract_condition : JSON → Option (Finset JSON)
  | .obj kvs =>
    match pyGet kvs "entity" with
    | some (.str s) => some {JSON.str s}
    | _ => some ∅
  | .str s => if pyInStr "entity" s then none else some ∅
  | .list items => if JSON.str "entity" ∈ items then none else some ∅
  | _ => none

/-- One iteration of the key loop of `__async_extract_entities_from_action`:
`if key in config and (entity_id := config[key].get("entity_id")):` then a
string `entity_id` is added and any other value is passed to
`set.update` (adding list elements or dict keys, `TypeError` otherwise). -/
def actionKeyContrib (config : JSON) (key : String) : Option (Finset JSON) :=
  match pyIn key config with
  | none => none
  | some false => some ∅
  | some true =>
    match config with
    | .obj kvs =>
      match pyGet kvs key with
      | some (.obj m) =>
        match pyGet m "entity_id" with
        | some eid =>
          if !(truthy eid) then some ∅
          else
            match eid with
            | .str s => some {JSON.str s}
            | .list items => if items.all hashable then some items.toFinset else none
            | .obj km => some ((km.map (fun p => JSON.str p.1)).toFinset)
            | _ => none
        | none => some ∅
      | some _ => none
      | none => none
    | _ => none

/-- Embeds `__async_extract_entities_from_action`: the union of the
`service_data` and `target` contributions. -/
def extract_action (config : JSON) : Option (Finset JSON) :=
  match actionKeyContrib config "service_data" with
  | none => none
  | some a =>
    match actionKeyContrib config "target" with
    | none => none
    | some b => some (a ∪ b)

/-- One iteration of the slot loop of `__async_extract_entities_from_actions`:
`if key in config: ... extract_action(config[key])`. -/
def actionSlotContrib (config : JSON) (key : String) : Option (Finset JSON) :=
  match pyIn key config with
  | none => none
  | some false => some ∅
  | some true =>
    match config with
    | .obj kvs =>
      match pyGet kvs key with
      | some v => extract_action v
      | none => none
    | _ => none

/-- Embeds `__async_extract_entities_from_actions`: the union over the four
action slots. -/
def extract_actions (config : JSON) : Option (Finset JSON) :=
  match actionSlotContrib config "tap_action" with
  | none => none
  | some a =>
    match actionSlotContrib config "hold_action" with
    | none => none
    | some b =>
      match actionSlotContrib config "double_tap_action" with
      | none => none
      | some c =>
        match actionSlotContrib config "subtitle_tap_action" with
        | none => none
        | some d => some (a ∪ b ∪ c ∪ d)

/-- Embeds `__async_extract_entities_from_header_footer`. -/
def extract_header_footer (config : JSON) : Option (Finset JSON) :=
  match extract_common config with
  | none => none
  | some a =>
    match extract_actions config with
    | none => none
    | some b => some (a ∪ b)

/-- The `if "conditions" in config: for condition in config["conditions"]`
loop shared by the element and mushroom-chip extractors. -/
def conditionsContrib (config : JSON) : Option (Finset JSON) :=
  match pyIn "conditions" config with
  | none => none
  | some false => some ∅
  | some true =>
    match config with
    | .obj kvs =>
      match pyGet kvs "conditions" with
      | some v =>
        match pyIter v with
        | some items => unionMapM extract_condition items ∅
        | none => none
      | none => none
    | _ => none

/-- The `if "elements" in config: for element in config["elements"]` loop of
`__async_extract_entities_from_element`, parametrized by the recursive call. -/
def elemElementsStep (rec : JSON → Option (Finset JSON)) (config : JSON) :
    Option (Finset JSON) :=
  match pyIn "elements" config with
  | none => none
  | some false => some ∅
  | some true =>
    match config with
    | .obj kvs =>
      match pyGet kvs "elements" with
      | some v =>
        match pyIter v with
        | some items => unionMapM rec items ∅
        | none => none
      | none => none
    | _ => none

/-- The body of `__async_extract_entities_from_element`, parametrized by the
recursive call for nested element groups. -/
def elemBody (rec : JSON → Option (Finset JSON)) (config : JSON) :
    Option (Finset JSON) :=
  match extract_common config with
  | none => none
  | some s1 =>
    match extract_actions config with
    | none => none
    | some s2 =>
      match extract_action config with
      | none => none
      | some s3 =>
        match conditionsContrib config with
        | none => none
        | some s4 =>
          match elemElementsStep rec config with
          | none => none
          | some s5 => some (s1 ∪ s2 ∪ s3 ∪ s4 ∪ s5)

/-- Fueled unfolding of the element extractor; the fuel only has to cover
the nesting depth of the input (see the adequacy lemmas below). -/
def extractElementF : Nat → JSON → Option (Finset JSON)
  | 0, _ => none
  | n + 1, config => elemBody (extractElementF n) config

/-- Embeds `__async_extract_entities_from_element`. -/
def extract_element (config : JSON) : Option (Finset JSON) :=
  extractElementF (size config) config

/-- The `if "chip" in config` recursion step of
`__async_extract_entities_from_mushroom_chip`. -/
def chipNestStep (rec : JSON → Option (Finset JSON)) (config : JSON) :
    Option (Finset JSON) :=
  match pyIn "chip" config with
  | none => none
  | some false => some ∅
  | some true =>
    match config with
    | .obj kvs =>
      match pyGet kvs "chip" with
      | some v => rec v
      | none => none
    | _ => none

/-- The body of `__async_extract_entities_from_mushroom_chip`, parametrized
by the recursive call. -/
def chipBody (rec : JSON → Option (Finset JSON)) (config : JSON) :
    Option (Finset JSON) :=
  match extract_common config with
  | none => none
  | some s1 =>
    match chipNestStep rec config with
    | none => none
    | some s2 =>
      match conditionsContrib config with
      | none => none
      | some s3 => some (s1 ∪ s2 ∪ s3)

/-- Fueled unfolding of the mushroom-chip extractor. -/
def extractMushroomChipF : Nat → JSON → Option (Finset JSON)
  | 0, _ => none
  | n + 1, config => chipBody (extractMushroomChipF n) config

/-- Embeds `__async_extract_entities_from_mushroom_chip`. -/
def extract_mushroom_chip (config : JSON) : Option (Finset JSON) :=
  extractMushroomChipF (size config) config

/-- The `if "condition" in config` step of
`__async_extract_entities_from_card`. -/
def cardCondStep (config : JSON) : Option (Finset JSON) :=
  match pyIn "condition" config with
  | none => none
  | some false => some ∅
  | some true =>
    match config with
    | .obj kvs =>
      match pyGet kvs "condition" with
      | some v => extract_condition v
      | none => none
    | _ => none

/-- The `if "card" in config` recursion step of
`__async_extract_entities_from_card`. -/
def cardNestStep (rec : JSON → Option (Finset JSON)) (config : JSON) :
    Option (Finset JSON) :=
  match pyIn "card" config with
  | none => none
  | some false => some ∅
  | some true =>
    match config with
    | .obj kvs =>
      match pyGet kvs "card" with
      | some v => rec v
      | none => none
    | _ => none

/-- The `for card in config.get("cards", [])` step of
`__async_extract_entities_from_card`; `.get` raises on non-dict receivers. -/
def cardsStep (rec : JSON → Option (Finset JSON)) (config : JSON) :
    Option (Finset JSON) :=
  match config with
  | .obj kvs =>
    match pyIter ((pyGet kvs "cards").getD (.list [])) with
    | some items => unionMapM rec items ∅
    | none => none
  | _ => none

/-- One iteration of the `for key in ("header", "footer")` loop of
`__async_extract_entities_from_card`. -/
def headerFooterKeyStep (config : JSON) (key : String) : Option (Finset JSON) :=
  match pyIn key config with
  | none => none
  | some false => some ∅
  | some true =>
    match config with
    | .obj kvs =>
      match pyGet kvs key with
      | some v => extract_header_footer v
      | none => none
    | _ => none

/-- The header/footer step of `__async_extract_entities_from_card`. -/
def headerFooterStep (config : JSON) : Option (Finset JSON) :=
  match headerFooterKeyStep config "header" with
  | none => none
  | some a =>
    match headerFooterKeyStep config "footer" with
    | none => none
    | some b => some (a ∪ b)

/-- The `for element in config.get("elements", [])` step of
`__async_extract_entities_from_card`. -/
def cardElementsStep (config : JSON) : Option (Finset JSON) :=
  match config with
  | .obj kvs =>
    match pyIter ((pyGet kvs "elements").getD (.list [])) with
    | some items => unionMapM extract_element items ∅
    | none => none
  | _ => none

/-- The `if "chips" in config: for chip in config["chips"]` step of
`__async_extract_entities_from_card`. -/
def chipsStep (config : JSON) : Option (Finset JSON) :=
  match pyIn "chips" config with
  | none => none
  | some false => some ∅
  | some true =>
    match config with
    | .obj kvs =>
      match pyGet kvs "chips" with
      | some v =>
        match pyIter v with
        | some items => unionMapM extract_mushroom_chip items ∅
        | none => none
      | none => none
    | _ => none

/-- The body of `__async_extract_entities_from_card`, parametrized by the
recursive call used for the nested `card` and the `cards` list. -/
def cardBody (rec : JSON → Option (Finset JSON)) (config : JSON) :
    Option (Finset JSON) :=
  match extract_common config with
  | none => none
  | some s1 =>
    match extract_actions config with
    | none => none
    | some s2 =>
      match cardCondStep config with
      | none => none
      | some s3 =>
        match cardNestStep rec config with
        | none => none
        | some s4 =>
          match cardsStep rec config with
          | none => none
          | some s5 =>
            match headerFooterStep config with
            | none => none
            | some s6 =>
              match cardElementsStep config with
              | none => none
              | some s7 =>
                match chipsStep config with
                | none => none
                | some s8 => some (s1 ∪ s2 ∪ s3 ∪ s4 ∪ s5 ∪ s6 ∪ s7 ∪ s8)

/-- Fueled unfolding of the card extractor. -/
def extractCardF : Nat → JSON → Option (Finset JSON)
  | 0, _ => none
  | n + 1, config => cardBody (extractCardF n) config

/-- Embeds `__async_extract_entities_from_card`. -/
def extract_card (config : JSON) : Option (Finset JSON) :=
  extractCardF (size config) config

/-- The `for badge in views.get("badges", [])` loop of
`__async_extract_entities`. -/
def badgesStep (vkvs : List (String × JSON)) : Option (Finset JSON) :=
  match pyIter ((pyGet vkvs "badges").getD (.list [])) with
  | some items => unionMapM extract_badge items ∅
  | none => none

/-- The `for card in views.get("cards", [])` loop of
`__async_extract_entities`. -/
def viewCardsStep (vkvs : List (String × JSON)) : Option (Finset JSON) :=
  match pyIter ((pyGet vkvs "cards").getD (.list [])) with
  | some items => unionMapM extract_card items ∅
  | none => none

/-- The contribution of one entry of the `views` list in
`__async_extract_entities`; non-dict views have no `.get`, so they raise. -/
def viewContrib (v : JSON) : Option (Finset JSON) :=
  match v with
  | .obj vkvs =>
    match badgesStep vkvs with
    | none => none
    | some b =>
      match viewCardsStep vkvs with
      | none => none
      | some c => some (b ∪ c)
  | _ => none

/-- Embeds `__async_extract_entities`, the top-level document walker. -/
def extract_document (config : JSON) : Option (Finset JSON) :=
  match config with
  | .obj kvs =>
    match pyIter ((pyGet kvs "views").getD (.list [])) with
    | some views => unionMapM viewContrib views ∅
    | none => none
  | _ => none

/-! ## The orchestrator's diff step (`async_inspect`) -/

/-- The domains exempted by the `startswith` tuple in `async_inspect`. -/
def exemptDomains : List String :=
  ["device_tracker.", "group.", "persistent_notification.", "scene."]

/-- The filter of the set comprehension in `async_inspect`: keep only string
entity ids that do not start with an exempt domain and are not known. -/
def keepUnknown (known : Finset String) : JSON → Bool
  | .str s => !(exemptDomains.any (fun p => pyStartsWith s p)) && !(decide (s ∈ known))
  | _ => false

/-- The `unknown_entities` set comprehension in `async_inspect`, applied to
an extraction result and the known-entity set. -/
def unknownEntities (extracted : Finset JSON) (known : Finset String) : Finset JSON :=
  extracted.filter (fun j => keepUnknown known j = true)

/-! ## Size lemmas: recursive calls always descend to strictly smaller nodes -/

theorem size_pos : ∀ j : JSON, 1 ≤ size j
  | .str _ => Nat.le_refl 1
  | .num _ => Nat.le_refl 1
  | .bool _ => Nat.le_refl 1
  | .null => Nat.le_refl 1
  | .list l => Nat.le_add_right 1 (sizeL l)
  | .obj kvs => Nat.le_add_right 1 (sizeKV kvs)

theorem sizeL_mem {x : JSON} : ∀ {l : List JSON}, x ∈ l → size x ≤ sizeL l := by
  intro l
  induction l with
  | nil => intro hx; cases hx
  | cons y ys ih =>
    intro hx
    rcases List.mem_cons.mp hx with h | h
    · subst h; unfold sizeL; omega
    · have := ih h; unfold sizeL; omega

theorem sizeKV_mem {k : String} {v : JSON} :
    ∀ {kvs : List (String × JSON)}, (k, v) ∈ kvs → 1 + size v ≤ sizeKV kvs := by
  intro kvs
  induction kvs with
  | nil => intro h; cases h
  | cons p ps ih =>
    intro h
    rcases List.mem_cons.mp h with h | h
    · rw [← h]; unfold sizeKV; omega
    · have := ih h
      obtain ⟨k2, v2⟩ := p
      unfold sizeKV; omega

theorem pyGet_mem {kvs : List (String × JSON)} {k : String} {v : JSON}
    (h : pyGet kvs k = some v) : ∃ k2, (k2, v) ∈ kvs := by
  unfold pyGet at h
  cases hf : kvs.find? (fun p => p.1 == k) with
  | none => rw [hf] at h; cases h
  | some p =>
    rw [hf] at h
    have hm := List.mem_of_find?_eq_some hf
    obtain ⟨k2, v2⟩ := p
    simp only [Option.map_some'] at h
    injection h with h
    exact ⟨k2, by rw [← h]; exact hm⟩

theorem pyGet_size {kvs : List (String × JSON)} {k : String} {v : JSON}
    (h : pyGet kvs k = some v) : size v < size (.obj kvs) := by
  obtain ⟨k2, hm⟩ := pyGet_mem h
  have := sizeKV_mem hm
  have hs : size (JSON.obj kvs) = 1 + sizeKV kvs := rfl
  omega

theorem pyIter_size {v : JSON} {items : List JSON} {x : JSON}
    (h : pyIter v = some items) (hx : x ∈ items) : size x ≤ size v := by
  cases v with
  | str s =>
    unfold pyIter at h
    injection h with h
    rw [← h] at hx
    obtain ⟨c, _, rfl⟩ := List.mem_map.mp hx
    exact Nat.le_refl 1
  | list l =>
    unfold pyIter at h
    injection h with h
    rw [← h] at hx
    have := sizeL_mem hx
    have hs : size (JSON.list l) = 1 + sizeL l := rfl
    omega
  | obj kvs =>
    unfold pyIter at h
    injection h with h
    rw [← h] at hx
    obtain ⟨p, _, rfl⟩ := List.mem_map.mp hx
    have := size_pos (JSON.obj kvs)
    exact le_trans (Nat.le_refl 1) this
  | num n => cases h
  | bool b => cases h
  | null => cases h

theorem pyGet_iter_size {kvs : List (String × JSON)} {key : String} {v : JSON}
    {items : List JSON} {x : JSON} (hg : pyGet kvs key = some v)
    (h : pyIter v = some items) (hx : x ∈ items) : size x < size (.obj kvs) :=
  lt_of_le_of_lt (pyIter_size h hx) (pyGet_size hg)

theorem pyGetD_iter_size {kvs : List (String × JSON)} {key : String}
    {items : List JSON} {x : JSON}
    (h : pyIter ((pyGet kvs key).getD (.list [])) = some items) (hx : x ∈ items) :
    size x < size (.obj kvs) := by
  cases hg : pyGet kvs key with
  | none =>
    rw [hg] at h
    simp only [Option.getD_none, pyIter] at h
    injection h with h
    rw [← h] at hx
    cases hx
  | some v =>
    rw [hg] at h
    simp only [Option.getD_some] at h
    exact pyGet_iter_size hg h hx

/-! ## Congruence and fuel adequacy for the recursive extractors -/

theorem unionMapM_congr {f g : JSON → Option (Finset JSON)} :
    ∀ {l : List JSON}, (∀ x ∈ l, f x = g x) →
      ∀ acc, unionMapM f l acc = unionMapM g l acc
  | [], _, _ => rfl
  | x :: xs, h, acc => by
    unfold unionMapM
    rw [← h x (List.mem_cons_self x xs)]
    cases f x with
    | none => rfl
    | some s => exact unionMapM_congr (fun y hy => h y (List.mem_cons_of_mem x hy)) (acc ∪ s)

theorem cardNestStep_congr {r r2 : JSON → Option (Finset JSON)} {config : JSON}
    (h : ∀ v, size v < size config → r v = r2 v) :
    cardNestStep r config = cardNestStep r2 config := by
  cases config with
  | obj kvs =>
    unfold cardNestStep
    simp only [pyIn]
    cases hg : pyGet kvs "card" with
    | none => simp [hg]
    | some v => simp [hg, h v (pyGet_size hg)]
  | str s => rfl
  | num n => rfl
  | bool b => rfl
  | null => rfl
  | list l => rfl

theorem chipNestStep_congr {r r2 : JSON → Option (Finset JSON)} {config : JSON}
    (h : ∀ v, size v < size config → r v = r2 v) :
    chipNestStep r config = chipNestStep r2 config := by
  cases config with
  | obj kvs =>
    unfold chipNestStep
    simp only [pyIn]
    cases hg : pyGet kvs "chip" with
    | none => simp [hg]
    | some v => simp [hg, h v (pyGet_size hg)]
  | str s => rfl
  | num n => rfl
  | bool b => rfl
  | null => rfl
  | list l => rfl

theorem cardsStep_congr {r r2 : JSON → Option (Finset JSON)} {config : JSON}
    (h : ∀ v, size v < size config → r v = r2 v) :
    cardsStep r config = cardsStep r2 config := by
  cases config with
  | obj kvs =>
    unfold cardsStep
    cases hi : pyIter ((pyGet kvs "cards").getD (.list [])) with
    | none => simp [hi]
    | some items =>
      simp only [hi]
      exact unionMapM_congr (fun x hx => h x (pyGetD_iter_size hi hx)) ∅
  | str s => rfl
  | num n => rfl
  | bool b => rfl
  | null => rfl
  | list l => rfl

theorem elemElementsStep_congr {r r2 : JSON → Option (Finset JSON)} {config : JSON}
    (h : ∀ v, size v < size config → r v = r2 v) :
    elemElementsStep r config = elemElementsStep r2 config := by
  cases config with
  | obj kvs =>
    unfold elemElementsStep
    simp only [pyIn]
    cases hg : pyGet kvs "elements" with
    | none => simp [hg]
    | some v =>
      simp only [hg, Option.isSome_some]
      cases hi : pyIter v with
      | none => rfl
      | some items =>
        exact unionMapM_congr (fun x hx => h x (pyGet_iter_size hg hi hx)) ∅
  | str s => rfl
  | num n => rfl
  | bool b => rfl
  | null => rfl
  | list l => rfl

theorem cardBody_congr {r r2 : JSON → Option (Finset JSON)} {config : JSON}
    (h : ∀ v, size v < size config → r v = r2 v) :
    cardBody r config = cardBody r2 config := by
  unfold cardBody
  simp only [cardNestStep_congr h, cardsStep_congr h]

theorem elemBody_congr {r r2 : JSON → Option (Finset JSON)} {config : JSON}
    (h : ∀ v, size v < size config → r v = r2 v) :
    elemBody r config = elemBody r2 config := by
  unfold elemBody
  simp only [elemElementsStep_congr h]

theorem chipBody_congr {r r2 : JSON → Option (Finset JSON)} {config : JSON}
    (h : ∀ v, size v < size config → r v = r2 v) :
    chipBody r config = chipBody r2 config := by
  unfold chipBody
  simp only [chipNestStep_congr h]

theorem extractElementF_mono :
    ∀ n (j : JSON), size j ≤ n → extractElementF n j = extract_element j := by
  intro n
  induction n using Nat.strong_induction_on with
  | _ n ih =>
    intro j hj
    have h1 := size_pos j
    obtain ⟨m, hm⟩ : ∃ m, n = m + 1 := ⟨n - 1, by omega⟩
    obtain ⟨s, hs⟩ : ∃ s, size j = s + 1 := ⟨size j - 1, by omega⟩
    subst hm
    unfold extract_element
    rw [hs]
    show elemBody (extractElementF m) j = elemBody (extractElementF s) j
    have e1 : elemBody (extractElementF m) j = elemBody extract_element j :=
      elemBody_congr (fun v hv => ih m (by omega) v (by omega))
    have e2 : elemBody (extractElementF s) j = elemBody extract_element j :=
      elemBody_congr (fun v hv => ih s (by omega) v (by omega))
    rw [e1, e2]

theorem extractMushroomChipF_mono :
    ∀ n (j : JSON), size j ≤ n → extractMushroomChipF n j = extract_mushroom_chip j := by
  intro n
  induction n using Nat.strong_induction_on with
  | _ n ih =>
    intro j hj
    have h1 := size_pos j
    obtain ⟨m, hm⟩ : ∃ m, n = m + 1 := ⟨n - 1, by omega⟩
    obtain ⟨s, hs⟩ : ∃ s, size j = s + 1 := ⟨size j - 1, by omega⟩
    subst hm
    unfold extract_mushroom_chip
    rw [hs]
    show chipBody (extractMushroomChipF m) j = chipBody (extractMushroomChipF s) j
    have e1 : chipBody (extractMushroomChipF m) j = chipBody extract_mushroom_chip j :=
      chipBody_congr (fun v hv => ih m (by omega) v (by omega))
    have e2 : chipBody (extractMushroomChipF s) j = chipBody extract_mushroom_chip j :=
      chipBody_congr (fun v hv => ih s (by omega) v (by omega))
    rw [e1, e2]

theorem extractCardF_mono :
    ∀ n (j : JSON), size j ≤ n → extractCardF n j = extract_card j := by
  intro n
  induction n using Nat.strong_induction_on with
  | _ n ih =>
    intro j hj
    have h1 := size_pos j
    obtain ⟨m, hm⟩ : ∃ m, n = m + 1 := ⟨n - 1, by omega⟩
    obtain ⟨s, hs⟩ : ∃ s, size j = s + 1 := ⟨size j - 1, by omega⟩
    subst hm
    unfold extract_card
    rw [hs]
    show cardBody (extractCardF m) j = cardBody (extractCardF s) j
    have e1 : cardBody (extractCardF m) j = cardBody extract_card j :=
      cardBody_congr (fun v hv => ih m (by omega) v (by omega))
    have e2 : cardBody (extractCardF s) j = cardBody extract_card j :=
      cardBody_congr (fun v hv => ih s (by omega) v (by omega))
    rw [e1, e2]

theorem extract_element_unfold (j : JSON) : extract_element j = elemBody extract_element j := by
  have h1 := size_pos j
  obtain ⟨s, hs⟩ : ∃ s, size j = s + 1 := ⟨size j - 1, by omega⟩
  unfold extract_element
  rw [hs]
  show elemBody (extractElementF s) j = elemBody extract_element j
  exact elemBody_congr (fun v hv => extractElementF_mono s v (by omega))

theorem extract_mushroom_chip_unfold (j : JSON) :
    extract_mushroom_chip j = chipBody extract_mushroom_chip j := by
  have h1 := size_pos j
  obtain ⟨s, hs⟩ : ∃ s, size j = s + 1 := ⟨size j - 1, by omega⟩
  unfold extract_mushroom_chip
  rw [hs]
  show chipBody (extractMushroomChipF s) j = chipBody extract_mushroom_chip j
  exact chipBody_congr (fun v hv => extractMushroomChipF_mono s v (by omega))

theorem extract_card_unfold (j : JSON) : extract_card j = cardBody extract_card j := by
  have h1 := size_pos j
  obtain ⟨s, hs⟩ : ∃ s, size j = s + 1 := ⟨size j - 1, by omega⟩
  unfold extract_card
  rw [hs]
  show cardBody (extractCardF s) j = cardBody extract_card j
  exact cardBody_congr (fun v hv => extractCardF_mono s v (by omega))


/-! ## Helper lemmas for the claims -/

theorem foldl_union_sub (f : String → Finset JSON) :
    ∀ (keys : List String) (acc : Finset JSON), acc ⊆ keys.foldl (fun a k => a ∪ f k) acc
  | [], acc => Finset.Subset.refl acc
  | k :: ks, acc => by
    have h2 := foldl_union_sub f ks (acc ∪ f k)
    intro x hx
    exact h2 (Finset.mem_union_left (f k) hx)

theorem foldl_union_mem (f : String → Finset JSON) :
    ∀ (keys : List String) (acc : Finset JSON) (k : String), k ∈ keys →
      ∀ x ∈ f k, x ∈ keys.foldl (fun a k2 => a ∪ f k2) acc := by
  intro keys
  induction keys with
  | nil => intro acc k hk; cases hk
  | cons k2 ks ih =>
    intro acc k hk x hx
    rcases List.mem_cons.mp hk with h | h
    · subst h
      exact foldl_union_sub f ks (acc ∪ f k) (Finset.mem_union_right acc hx)
    · exact ih (acc ∪ f k2) k h x hx

theorem actionKeyContrib_str {a m : List (String × JSON)} {key s}
    (hm : pyGet a key = some (.obj m)) (he : pyGet m "entity_id" = some (.str s))
    (hne : s ≠ "") :
    actionKeyContrib (.obj a) key = some {JSON.str s} := by
  unfold actionKeyContrib
  simp [pyIn, hm, he, truthy, hne]

theorem actionKeyContrib_list_mem {a m : List (String × JSON)} {key} {items : List JSON}
    {x : JSON} {t : Finset JSON}
    (hm : pyGet a key = some (.obj m)) (he : pyGet m "entity_id" = some (.list items))
    (hx : x ∈ items) (ht : actionKeyContrib (.obj a) key = some t) : x ∈ t := by
  have hne : items ≠ [] := by intro h; subst h; cases hx
  unfold actionKeyContrib at ht
  simp [pyIn, hm, he, truthy, hne] at ht
  rw [← ht.2]
  exact List.mem_toFinset.mpr hx

theorem extract_action_eq {c : JSON} {S : Finset JSON} (h : extract_action c = some S) :
    ∃ s1 s2, actionKeyContrib c "service_data" = some s1 ∧
      actionKeyContrib c "target" = some s2 ∧ S = s1 ∪ s2 := by
  unfold extract_action at h
  cases h1 : actionKeyContrib c "service_data" with
  | none => rw [h1] at h; cases h
  | some s1 =>
    rw [h1] at h
    cases h2 : actionKeyContrib c "target" with
    | none => rw [h2] at h; cases h
    | some s2 =>
      rw [h2] at h
      injection h with h
      exact ⟨s1, s2, rfl, rfl, h.symm⟩

/-! ## Claims -/

/-- Claim C1 counterexample: not every malformed node degrades to the empty
set — a badge whose `entity` value is a mapping makes
`__async_extract_entities_from_badge` evaluate `{config["entity"]}` with an
unhashable element, raising `TypeError` (modelled as `none`). -/
theorem badge_entity_mapping_raises :
    extract_badge (.obj [("entity", .obj [])]) = none := by decide

/-- Claim C1 (amended): the extractors do not uniformly degrade to empty on
malformed input (see the counterexample), but on the recognized shapes they
do return a set without raising: `extract_common` never raises on any string
or mapping node, and `extract_condition` never raises on any mapping node. -/
theorem extractors_degrade_on_recognized_shapes :
    (∀ s, extract_common (.str s) = some ∅)
    ∧ (∀ kvs, ∃ S, extract_common (.obj kvs) = some S)
    ∧ (∀ kvs, ∃ S, extract_condition (.obj kvs) = some S) := by
  refine ⟨fun s => rfl, fun kvs => ⟨_, rfl⟩, ?_⟩
  intro kvs
  rcases hg : pyGet kvs "entity" with _ | v
  · exact ⟨∅, by simp [extract_condition, hg]⟩
  · cases v with
    | str s => exact ⟨{JSON.str s}, by simp [extract_condition, hg]⟩
    | num n => exact ⟨∅, by simp [extract_condition, hg]⟩
    | bool b => exact ⟨∅, by simp [extract_condition, hg]⟩
    | null => exact ⟨∅, by simp [extract_condition, hg]⟩
    | list l => exact ⟨∅, by simp [extract_condition, hg]⟩
    | obj o => exact ⟨∅, by simp [extract_condition, hg]⟩

/-- Claim C2: an extracted identifier whose prefix is one of the exempt
domains (`device_tracker.`, `group.`, `persistent_notification.`, `scene.`)
never appears in the `unknown_entities` set computed by `async_inspect`,
regardless of the extraction result and of the known-entity set. -/
theorem exempt_domain_never_unknown (extracted : Finset JSON) (known : Finset String)
    (s : String) (h : exemptDomains.any (fun p => pyStartsWith s p) = true) :
    JSON.str s ∉ unknownEntities extracted known := by
  intro hmem
  have h2 := (Finset.mem_filter.mp hmem).2
  simp [keepUnknown, h] at h2

/-- Claim C2 witness: `group.all`, extracted but not known, is still not
classified as unknown. -/
theorem exempt_domain_never_unknown_witness :
    exemptDomains.any (fun p => pyStartsWith "group.all" p) = true
    ∧ JSON.str "group.all" ∉ unknownEntities {JSON.str "group.all"} ∅ :=
  ⟨by decide, exempt_domain_never_unknown {JSON.str "group.all"} ∅ "group.all" (by decide)⟩

/-- Claim C3 counterexample: for the mapping badge `{"entities": [[]]}` the
claim asserts the set of the list elements is returned, but
`set(config["entities"])` raises `TypeError` on the unhashable inner list
(modelled as `none`). -/
theorem badge_entities_unhashable_raises :
    extract_badge (.obj [("entities", .list [.list []])]) = none := by decide

/-- Claim C3 (amended): `extract_badge` maps a bare string badge to its
singleton; a mapping badge with an `entity` key whose value is hashable to
the singleton of that value; otherwise a mapping badge whose `entities`
value is a list of hashables to the set of the list elements (with no
object-with-entity-key fallback); and any other mapping badge to the empty
set.  The hashability restrictions are forced: outside them the code raises
rather than returning a set. -/
theorem badge_extraction_characterization :
    (∀ s, extract_badge (.str s) = some {JSON.str s})
    ∧ (∀ kvs v, pyGet kvs "entity" = some v → hashable v = true →
        extract_badge (.obj kvs) = some {v})
    ∧ (∀ kvs items, pyGet kvs "entity" = none → pyGet kvs "entities" = some (.list items) →
        items.all hashable = true → extract_badge (.obj kvs) = some items.toFinset)
    ∧ (∀ kvs, pyGet kvs "entity" = none → pyGet kvs "entities" = none →
        extract_badge (.obj kvs) = some ∅) := by
  refine ⟨fun s => rfl, ?_, ?_, ?_⟩
  · intro kvs v hg hh
    simp [extract_badge, hg, hh]
  · intro kvs items h1 h2 h3
    simp [extract_badge, h1, h2, pySet, h3]
  · intro kvs h1 h2
    simp [extract_badge, h1, h2]

/-- Claim C3 witness: the four branches at concrete badges. -/
theorem badge_extraction_characterization_witness :
    extract_badge (.str "sensor.temp") = some {JSON.str "sensor.temp"}
    ∧ extract_badge (.obj [("entity", .num 7)]) = some {JSON.num 7}
    ∧ extract_badge (.obj [("entities", .list [.str "a.b"])])
        = some ([JSON.str "a.b"] : List JSON).toFinset
    ∧ extract_badge (.obj [("x", .null)]) = some ∅ :=
  ⟨badge_extraction_characterization.1 "sensor.temp",
   badge_extraction_characterization.2.1 _ _ (by decide) (by decide),
   badge_extraction_characterization.2.2.1 _ _ (by decide) (by decide) (by decide),
   badge_extraction_characterization.2.2.2 _ (by decide) (by decide)⟩

/-- Claim C4 counterexample: `{"entity": ""}` binds a recognized key to a
string, but the truthiness guard `if entity := config.get(key):` skips the
empty string, so it is not a member of the result. -/
theorem common_empty_string_not_extracted :
    ¬ ∃ S, extract_common (.obj [("entity", .str "")]) = some S ∧ JSON.str "" ∈ S := by
  intro ⟨S, hS, hmem⟩
  have : extract_common (.obj [("entity", JSON.str "")]) = some ∅ := by decide
  rw [this] at hS
  injection hS with hS
  rw [← hS] at hmem
  cases hmem

/-- Claim C4 (amended): for every mapping node and every recognized key
(`camera_image`, `entity`, `entities`, `entity_id`) bound to a non-empty
string, that string is a member of `extract_common` of the node; the keys
are checked independently, so this holds for each key a node populates; and
`extract_common` of a plain string node is the empty set. -/
theorem common_key_extraction :
    (∀ kvs key s S, key ∈ commonKeys → pyGet kvs key = some (.str s) → s ≠ "" →
      extract_common (.obj kvs) = some S → JSON.str s ∈ S)
    ∧ (∀ s, extract_common (.str s) = some ∅) := by
  refine ⟨?_, fun s => rfl⟩
  intro kvs key s S hk hg hne hS
  have heq : extract_common (.obj kvs)
      = some (commonKeys.foldl (fun acc k => acc ∪ commonKeyContrib kvs k) ∅) := rfl
  rw [heq] at hS
  injection hS with hS
  rw [← hS]
  apply foldl_union_mem (fun k => commonKeyContrib kvs k) commonKeys ∅ key hk
  simp [commonKeyContrib, hg, truthy, hne, commonValue]

/-- Claim C4 witness: a non-empty `entity` string is extracted. -/
theorem common_key_extraction_witness :
    JSON.str "a.b" ∈ ({JSON.str "a.b"} : Finset JSON) :=
  common_key_extraction.1 [("entity", JSON.str "a.b")] "entity" "a.b" {JSON.str "a.b"}
    (by decide) (by decide) (by decide) (by decide)

/-- Claim C5 counterexample: an action `{"service_data": {"entity_id": ""}}`
has a string `entity_id`, but the truthiness guard skips it, so it is not
added to the result. -/
theorem action_empty_entity_id_not_extracted :
    ¬ ∃ S, extract_action (.obj [("service_data", .obj [("entity_id", .str "")])]) = some S
      ∧ JSON.str "" ∈ S := by
  intro ⟨S, hS, hmem⟩
  have : extract_action (.obj [("service_data", JSON.obj [("entity_id", JSON.str "")])])
      = some ∅ := by decide
  rw [this] at hS
  injection hS with hS
  rw [← hS] at hmem
  cases hmem

/-- Claim C5 (amended): for an action mapping and each of `service_data` and
`target`, a non-empty string `entity_id` under that key is a member of any
set `extract_action` returns, and every element of a list `entity_id` is a
member of any set it returns; and the card
`{"tap_action": {"target": {"entity_id": ["a.x", "a.y"]}}}` extracts exactly
that pair via the action path. -/
theorem action_entity_id_extraction :
    (∀ a m key s S, (key = "service_data" ∨ key = "target") →
      pyGet a key = some (.obj m) → pyGet m "entity_id" = some (.str s) → s ≠ "" →
      extract_action (.obj a) = some S → JSON.str s ∈ S)
    ∧ (∀ a m key items x S, (key = "service_data" ∨ key = "target") →
      pyGet a key = some (.obj m) → pyGet m "entity_id" = some (.list items) → x ∈ items →
      extract_action (.obj a) = some S → x ∈ S)
    ∧ extract_card (.obj [("tap_action", .obj [("target", .obj [("entity_id",
        .list [.str "a.x", .str "a.y"])])])]) = some {JSON.str "a.x", JSON.str "a.y"} := by
  refine ⟨?_, ?_, by decide⟩
  · intro a m key s S hkey hm he hne hS
    obtain ⟨s1, s2, h1, h2, hu⟩ := extract_action_eq hS
    rcases hkey with h | h
    · subst h
      rw [actionKeyContrib_str hm he hne] at h1
      injection h1 with h1
      rw [hu, ← h1]
      exact Finset.mem_union_left s2 (Finset.mem_singleton_self (JSON.str s))
    · subst h
      rw [actionKeyContrib_str hm he hne] at h2
      injection h2 with h2
      rw [hu, ← h2]
      exact Finset.mem_union_right s1 (Finset.mem_singleton_self (JSON.str s))
  · intro a m key items x S hkey hm he hx hS
    obtain ⟨s1, s2, h1, h2, hu⟩ := extract_action_eq hS
    rcases hkey with h | h
    · subst h
      rw [hu]
      exact Finset.mem_union_left s2 (actionKeyContrib_list_mem hm he hx h1)
    · subst h
      rw [hu]
      exact Finset.mem_union_right s1 (actionKeyContrib_list_mem hm he hx h2)

/-- Claim C5 witness: a non-empty `entity_id` under `target` is extracted. -/
theorem action_entity_id_extraction_witness :
    JSON.str "a.b" ∈ (∅ ∪ {JSON.str "a.b"} : Finset JSON) :=
  action_entity_id_extraction.1 [("target", JSON.obj [("entity_id", JSON.str "a.b")])]
    [("entity_id", JSON.str "a.b")] "target" "a.b" (∅ ∪ {JSON.str "a.b"})
    (Or.inr rfl) (by decide) (by decide) (by decide) (by decide)

/-- Claim C6: `extract_card` of a mapping is the union of `extract_common`,
the action-slot extraction, the `condition` step, the nested-`card`
recursion, the `cards` recursion, the header/footer step, the `elements`
step and the mushroom `chips` step (whenever all of them return); the card
`{"entity": "light.kitchen", "card": {"entity": "light.hall"}}` extracts
exactly both entities, and a card with no recognized key yields the empty
set. -/
theorem card_extraction_union :
    (∀ (kvs : List (String × JSON)) (S1 S2 S3 S4 S5 S6 S7 S8 : Finset JSON),
      extract_common (.obj kvs) = some S1 →
      extract_actions (.obj kvs) = some S2 →
      cardCondStep (.obj kvs) = some S3 →
      cardNestStep extract_card (.obj kvs) = some S4 →
      cardsStep extract_card (.obj kvs) = some S5 →
      headerFooterStep (.obj kvs) = some S6 →
      cardElementsStep (.obj kvs) = some S7 →
      chipsStep (.obj kvs) = some S8 →
      extract_card (.obj kvs) = some (S1 ∪ S2 ∪ S3 ∪ S4 ∪ S5 ∪ S6 ∪ S7 ∪ S8))
    ∧ extract_card (.obj [("entity", .str "light.kitchen"),
        ("card", .obj [("entity", .str "light.hall")])])
        = some {JSON.str "light.kitchen", JSON.str "light.hall"}
    ∧ extract_card (.obj []) = some ∅ := by
  refine ⟨?_, by decide, by decide⟩
  intro kvs S1 S2 S3 S4 S5 S6 S7 S8 h1 h2 h3 h4 h5 h6 h7 h8
  rw [extract_card_unfold]
  unfold cardBody
  simp only [h1, h2, h3, h4, h5, h6, h7, h8]

/-- Claim C6 witness: the decomposition applied to a one-key card. -/
theorem card_extraction_union_witness :
    extract_card (.obj [("entity", JSON.str "a.b")])
      = some ({JSON.str "a.b"} ∪ ∅ ∪ ∅ ∪ ∅ ∪ ∅ ∪ ∅ ∪ ∅ ∪ ∅) :=
  card_extraction_union.1 [("entity", JSON.str "a.b")] {JSON.str "a.b"} ∅ ∅ ∅ ∅ ∅ ∅ ∅
    (by decide) (by decide) (by decide) (by decide) (by decide) (by decide) (by decide)
    (by decide)

/-- Claim C8: `extract_document` is a pure function — structurally equal
documents give identical result sets, and repeated runs give the same set
(there is no hidden state: a Lean function of the document only). -/
theorem extract_document_deterministic (d1 d2 : JSON) (h : d1 = d2) :
    extract_document d1 = extract_document d2 := by rw [h]

/-- Claim C8 witness: determinism applied at a concrete document. -/
theorem extract_document_deterministic_witness :
    extract_document (.obj []) = extract_document (.obj []) :=
  extract_document_deterministic (.obj []) (.obj []) rfl

/-- Claim C9: every member of the `unknown_entities` set built by
`async_inspect` is a string (the comprehension filters with an
`isinstance(entity_id, str)` check), while extraction can produce
non-strings — a badge with a numeric `entity` yields a number, which is
silently dropped and never reported. -/
theorem unknown_entities_are_strings :
    (∀ (extracted : Finset JSON) (known : Finset String) (j : JSON),
        j ∈ unknownEntities extracted known → ∃ s, j = JSON.str s)
    ∧ extract_badge (.obj [("entity", .num 5)]) = some {JSON.num 5}
    ∧ (∀ known : Finset String, JSON.num 5 ∉ unknownEntities {JSON.num 5} known) := by
  refine ⟨?_, by decide, ?_⟩
  · intro extracted known j hmem
    have h2 := (Finset.mem_filter.mp hmem).2
    cases j with
    | str s => exact ⟨s, rfl⟩
    | num n => simp [keepUnknown] at h2
    | bool b => simp [keepUnknown] at h2
    | null => simp [keepUnknown] at h2
    | list l => simp [keepUnknown] at h2
    | obj o => simp [keepUnknown] at h2
  · intro known hmem
    have h2 := (Finset.mem_filter.mp hmem).2
    simp [keepUnknown] at h2

/-- Claim C9 witness: a member of a concrete unknown set is a string. -/
theorem unknown_entities_are_strings_witness :
    ∃ s, JSON.str "a.b" = JSON.str s :=
  unknown_entities_are_strings.1 {JSON.str "a.b"} ∅ (JSON.str "a.b") (by decide)

/-- Claim C10: a recognized key bound to a falsy value contributes nothing —
the per-key contribution of `__async_extract_common` is empty whenever the
value is falsy (empty string, empty list, `None`, `0`, `False`), and the
per-key contribution of `__async_extract_entities_from_action` is the empty
set (without raising) whenever `entity_id` is falsy, because both guard with
truthiness before dispatching on type. -/
theorem falsy_values_ignored :
    (∀ kvs key v, key ∈ commonKeys → pyGet kvs key = some v → truthy v = false →
      commonKeyContrib kvs key = ∅)
    ∧ (∀ a m key v, (key = "service_data" ∨ key = "target") →
      pyGet a key = some (.obj m) → pyGet m "entity_id" = some v → truthy v = false →
      actionKeyContrib (.obj a) key = some ∅) := by
  constructor
  · intro kvs key v hk hg ht
    simp [commonKeyContrib, hg, ht]
  · intro a m key v hk hm he ht
    unfold actionKeyContrib
    simp [pyIn, hm, he, ht]

/-- Claim C10 witness: empty-string values under `entity` and `entity_id`
contribute nothing. -/
theorem falsy_values_ignored_witness :
    commonKeyContrib [("entity", JSON.str "")] "entity" = ∅
    ∧ actionKeyContrib (.obj [("service_data", JSON.obj [("entity_id", JSON.str "")])])
        "service_data" = some ∅ :=
  ⟨falsy_values_ignored.1 [("entity", JSON.str "")] "entity" (JSON.str "")
      (by decide) (by decide) (by decide),
   falsy_values_ignored.2 [("service_data", JSON.obj [("entity_id", JSON.str "")])]
      [("entity_id", JSON.str "")] "service_data" (JSON.str "")
      (Or.inl rfl) (by decide) (by decide) (by decide)⟩

end Spook

